import Mathlib

/-!
A shallow embedding of the memory lifecycle and agent-invocation state
machine of the `memory_agent` package (files `memory_agent/memory_manager.py`
and `memory_agent/memory_agent.py`), together with theorems settling the
frozen claims about it.

External effects (checkpoint store acquisition/refresh, agent graph build,
chat-model call, memory extraction) are modelled by oracles supplied in a
"world" record: each effectful step either succeeds with a value or raises a
Python exception carrying a message.
-/

/-- Outcome of one effectful step: success with a value, or a raised
Python exception carrying its message string. -/
inductive StepResult (α : Type) where
  | ok : α → StepResult α
  | exn : String → StepResult α
  deriving DecidableEq, Repr

/-- The memory namespace tuple `("memories", thread_id, user_id, session_id)`
built in `MemoryManager.__init__`. -/
abbrev Namespace : Type := String × String × String × String

/-- `MemoryActionType = Literal["hotpath", "background"]`. -/
inductive ActionType where
  | hotpath
  | background
  deriving DecidableEq, Repr

/-- The three extraction schema classes imported from `memory_schemas`
(`Episode`, `UserProfile`, `Triple`); only their identity matters here. -/
inductive Schema where
  | Episode
  | UserProfile
  | Triple
  deriving DecidableEq, Repr

/-- Mutable configuration of a `MemoryManager` / `MemoryAgent` instance set
in `MemoryManager.__init__` (the fields the claims depend on). -/
structure AgentState where
  thread_id : String
  user_id : String
  session_id : String
  /-- `self.namespace`, built once in `__init__`. -/
  nspace : Namespace
  store_type : String
  action_type : ActionType
  refresh_checkpointer : Bool
  filter_minutes : Nat
  max_recursion_limit : Nat
  deriving DecidableEq, Repr

namespace MemoryManager

/-- `MemoryManager.__init__`: records the identifiers and builds
`self.namespace = ("memories", self.thread_id, self.user_id, self.session_id)`.
Defaults in the source: `user_id = "*"`, `session_id = "*"`,
`action_type = "hotpath"`, `store_type = "semantic"`, `filter_minutes = 60`,
`refresh_checkpointer = True`, `max_recursion_limit = 25`. -/
def init (thread_id user_id session_id store_type : String)
    (action_type : ActionType) (refresh_checkpointer : Bool)
    (filter_minutes max_recursion_limit : Nat) : AgentState :=
  { thread_id := thread_id
    user_id := user_id
    session_id := session_id
    nspace := ("memories", thread_id, user_id, session_id)
    store_type := store_type
    action_type := action_type
    refresh_checkpointer := refresh_checkpointer
    filter_minutes := filter_minutes
    max_recursion_limit := max_recursion_limit }

/-- `MemoryManager._get_similar`: queries the store with the instance
namespace and the content of the last message of the conversation state
(`state["messages"][-1]` raises `IndexError` on an empty message list). -/
def get_similar {α : Type} (search : Namespace → String → α)
    (a : AgentState) (messages : List String) : Except String α :=
  match messages.getLast? with
  | none => Except.error "IndexError: list index out of range"
  | some query => Except.ok (search a.nspace query)

/-- Instruction text selected for `store_type == "episodic"` in
`MemoryManager.update_memory`. -/
def episodicInstructions : String :=
  "Extract examples of successful explanations, " ++
  "capturing the full chain of reasoning. " ++
  "Be concise in your explanations and precise in the " ++
  "logic of your reasoning."

/-- Instruction text selected for `store_type == "user"`. -/
def userInstructions : String := "Extract user profile information"

/-- Instruction text selected for `store_type == "semantic"` (the `else`
branch). -/
def semanticInstructions : String :=
  "Extract user preferences and any other useful information"

/-- `allowed_store_types = ("episodic", "user", "semantic")`. -/
def allowedStoreTypes : List String := ["episodic", "user", "semantic"]

/-- The `ValueError` message raised by `update_memory` on an invalid
`store_type` (string formatting of the tuple abbreviated). -/
def storeTypeErrorMsg : String :=
  "store_type must be one of (episodic, user, semantic)"

/-- The validation and instruction/schema routing at the top of
`MemoryManager.update_memory`: reject a `store_type` outside
`allowed_store_types` with a `ValueError`, otherwise pick the fixed
`(instructions, schemas)` pair for the given type. -/
def selectPair (store_type : String) : Except String (String × List Schema) :=
  if store_type ∉ allowedStoreTypes then
    Except.error storeTypeErrorMsg
  else if store_type = "episodic" then
    Except.ok (episodicInstructions, [Schema.Episode])
  else if store_type = "user" then
    Except.ok (userInstructions, [Schema.UserProfile])
  else
    Except.ok (semanticInstructions, [Schema.Triple])

/-- The arguments `update_memory` hands to `create_memory_store_manager`
(via `self.create_memory`): the selected instructions and schemas and the
instance namespace. -/
structure MemConfig where
  instructions : String
  schemas : List Schema
  nspace : Namespace
  deriving DecidableEq, Repr

/-- The `RunnableConfig` assembled by `MemoryAgent._params`
(`configurable.thread_id`, `configurable.recursion_limit`, plus `user_id`
and `session_id` when truthy). -/
structure RunnableConfig where
  thread_id : String
  recursion_limit : Nat
  user_id : Option String
  session_id : Option String
  deriving DecidableEq, Repr

/-- What `update_memory` returns: in background mode the handle of the task
submitted to the `ReflectionExecutor` with `after_seconds = delay` (the
extraction itself is not awaited); in hotpath mode the awaited result of
`mem.ainvoke`. -/
inductive UpdateReturn where
  | submitted : MemConfig → Nat → UpdateReturn
  | awaited : MemConfig → String → UpdateReturn
  deriving DecidableEq, Repr

/-- The memory-manager configuration a consolidation ran against. -/
def UpdateReturn.mem : UpdateReturn → MemConfig
  | UpdateReturn.submitted m _ => m
  | UpdateReturn.awaited m _ => m

/-- Default of `update_memory`'s `store_type` parameter. -/
def updateMemoryDefaultStoreType : String := "semantic"

/-- Default of `update_memory`'s `delay` parameter. -/
def updateMemoryDefaultDelay : Nat := 10

/-- `MemoryManager.update_memory(messages, config, store_type="semantic",
delay=10)`: validate `store_type`, select the fixed instruction/schema pair,
create the memory store manager over the instance namespace, then either
submit a delayed background task (returning its handle, without running the
extraction) or await the extraction (`mem.ainvoke`, modelled by the
`extract` oracle, which may raise). -/
def update_memory (action_type : ActionType) (nspace : Namespace)
    (extract : MemConfig → String → RunnableConfig → StepResult String)
    (messages : String) (config : RunnableConfig)
    (store_type : String) (delay : Nat) : Except String UpdateReturn :=
  match selectPair store_type with
  | Except.error m => Except.error m
  | Except.ok pair =>
    let mem : MemConfig :=
      { instructions := pair.1, schemas := pair.2, nspace := nspace }
    match action_type with
    | ActionType.background => Except.ok (UpdateReturn.submitted mem delay)
    | ActionType.hotpath =>
      match extract mem messages config with
      | StepResult.exn m => Except.error m
      | StepResult.ok v => Except.ok (UpdateReturn.awaited mem v)

/-- The variant `MemoryManager.update_memory` in
`memory_agent/agent/memory_manager.py`: same validation and routing, applied
to the instance attribute `self.store_type` instead of a parameter. -/
def update_memory_attr (a : AgentState)
    (extract : MemConfig → String → RunnableConfig → StepResult String)
    (messages : String) (config : RunnableConfig) (delay : Nat) :
    Except String UpdateReturn :=
  update_memory a.action_type a.nspace extract messages config
    a.store_type delay

end MemoryManager

namespace MemoryAgent

open MemoryManager

/-- The inner dict assigned into `result["content"]` by `astream`
(`{"is_task_complete": ..., "require_user_input": ..., "content": str}`). -/
structure InnerResult where
  is_task_complete : Bool
  require_user_input : Bool
  content : String
  deriving DecidableEq, Repr

/-- Value of the `content` field of a result dict: either a plain string or
the nested status dict `astream` writes into it. -/
inductive Content where
  | text : String → Content
  | nested : InnerResult → Content
  deriving DecidableEq, Repr

/-- The `result` dict built by `ainvoke` / `astream`:
`{"is_task_complete": ..., "require_user_input": ..., "content": ...}`. -/
structure ResultDict where
  is_task_complete : Bool
  require_user_input : Bool
  content : Content
  deriving DecidableEq, Repr

/-- The `error` dict: `{"message": str}` in `ainvoke`,
`{"code": 500, "message": str}` in `astream`. -/
structure ErrorDict where
  code : Option Int
  message : String
  deriving DecidableEq, Repr

/-- The JSON-RPC response envelope built by `MemoryAgent._response`:
`{"jsonrpc": "2.0", "id": thread_id}` plus a `result` key when `result` is
not `None` and an `error` key when `error` is not `None`. -/
structure Envelope where
  jsonrpc : String
  id : String
  result : Option ResultDict
  error : Option ErrorDict
  deriving DecidableEq, Repr

/-- The envelope dict `_response` builds once past its `None`/`None` check. -/
def mkEnvelope (thread_id : String) (result : Option ResultDict)
    (error : Option ErrorDict) : Envelope :=
  { jsonrpc := "2.0", id := thread_id, result := result, error := error }

/-- `MemoryAgent._response(thread_id, result, error)`: raises
`ValueError("Both result and error are None")` when both arguments are
`None`, otherwise returns the envelope with the present fields. -/
def response (thread_id : String) (result : Option ResultDict)
    (error : Option ErrorDict) : Except String Envelope :=
  if result = none ∧ error = none then
    Except.error "Both result and error are None"
  else
    Except.ok (mkEnvelope thread_id result error)

/-- `MemoryAgent._params(prompt, thread_id)`: the `RunnableConfig` with the
thread id and recursion limit, adding `user_id` / `session_id` only when
they are truthy (non-empty) strings. The input data is the prompt wrapped
as a single user message. -/
def params (a : AgentState) (prompt : String) (thread_id : String) :
    RunnableConfig × String :=
  ({ thread_id := thread_id
     recursion_limit := a.max_recursion_limit
     user_id := if a.user_id ≠ "" then some a.user_id else none
     session_id := if a.session_id ≠ "" then some a.session_id else none },
   prompt)

/-- The placeholder content used when no output message is produced. -/
def unableContent : String :=
  "We are unable to process your request at the moment. Please try again."

/-- The `result` dict both `ainvoke` and `astream` initialize before
running. -/
def defaultResult : ResultDict :=
  { is_task_complete := false
    require_user_input := true
    content := Content.text unableContent }

/-- The `self.thread_id = thread_id` override at the top of `ainvoke` and
`astream` (performed only when the argument is not `None`). -/
def applyThread (a : AgentState) (thread_id : Option String) : AgentState :=
  match thread_id with
  | some t => { a with thread_id := t }
  | none => a

/-- Oracles for the effectful steps of one `ainvoke` call:
checkpointer acquisition (`MemoryCheckpointer.from_conn_info`), checkpoint
refresh (`adelete_by_thread_id`), agent graph build or rebind,
the model call (`self.agent.ainvoke`, whose successful value is the list of
contents of `response_agent["messages"]`, the empty list standing for a
missing or empty key), and the extraction run by `update_memory`. -/
structure InvokeWorld where
  acquire : StepResult Unit
  refreshStep : StepResult Unit
  build : StepResult Unit
  modelMessages : StepResult (List String)
  extract : MemConfig → String → RunnableConfig → StepResult String

/-- Observable outcome of one `ainvoke` call: the post-call instance state,
the `RunnableConfig` it built, the returned envelope, and the
`update_memory` call it made (if any). -/
structure InvokeRun where
  state : AgentState
  config : RunnableConfig
  envelope : Envelope
  consolidation : Option UpdateReturn
  deriving Repr

/-- The error envelope `ainvoke` returns from its `except` block:
`result=None`, `error={"message": str(e)}`. -/
def invokeErrorEnvelope (thread_id msg : String) : Envelope :=
  mkEnvelope thread_id none (some { code := none, message := msg })

/-- `MemoryAgent.ainvoke(prompt, thread_id=None)`: override the thread id,
build the config and the default result, acquire the checkpointer, refresh
it when `refresh_checkpointer` is set, build or rebind the agent, run the
model; when the response carries at least one message take the last
message's content as `result["content"]` and trigger `update_memory` with
its defaults (`store_type="semantic"`, `delay=10`); any exception anywhere
is caught and turned into an error envelope carrying its message. -/
def ainvoke (a : AgentState) (w : InvokeWorld) (prompt : String)
    (thread_id : Option String) : InvokeRun :=
  let a := applyThread a thread_id
  let config := (params a prompt a.thread_id).1
  let err : String → InvokeRun := fun m =>
    { state := a, config := config
      envelope := invokeErrorEnvelope a.thread_id m
      consolidation := none }
  match w.acquire with
  | StepResult.exn m => err m
  | StepResult.ok _ =>
    match (if a.refresh_checkpointer then w.refreshStep
           else StepResult.ok ()) with
    | StepResult.exn m => err m
    | StepResult.ok _ =>
      match w.build with
      | StepResult.exn m => err m
      | StepResult.ok _ =>
        match w.modelMessages with
        | StepResult.exn m => err m
        | StepResult.ok msgs =>
          match msgs.getLast? with
          | none =>
            { state := a, config := config
              envelope := mkEnvelope a.thread_id (some defaultResult) none
              consolidation := none }
          | some content =>
            match update_memory a.action_type a.nspace w.extract content
                config updateMemoryDefaultStoreType
                updateMemoryDefaultDelay with
            | Except.error m => err m
            | Except.ok u =>
              { state := a, config := config
                envelope := mkEnvelope a.thread_id
                  (some { defaultResult with content := Content.text content })
                  none
                consolidation := some u }

/-- The message of the first exception an `ainvoke` run encounters, in the
order the steps execute (`None` when the run succeeds). -/
def firstInvokeExn (a : AgentState) (w : InvokeWorld)
    (config : RunnableConfig) : Option String :=
  match w.acquire with
  | StepResult.exn m => some m
  | StepResult.ok _ =>
    match (if a.refresh_checkpointer then w.refreshStep
           else StepResult.ok ()) with
    | StepResult.exn m => some m
    | StepResult.ok _ =>
      match w.build with
      | StepResult.exn m => some m
      | StepResult.ok _ =>
        match w.modelMessages with
        | StepResult.exn m => some m
        | StepResult.ok msgs =>
          match msgs.getLast? with
          | none => none
          | some content =>
            match update_memory a.action_type a.nspace w.extract content
                config updateMemoryDefaultStoreType
                updateMemoryDefaultDelay with
            | Except.error m => some m
            | Except.ok _ => none

end MemoryAgent

namespace MemoryAgent

open MemoryManager

/-- Which node key an `astream` event carries: `"agent" in event`,
`"tools" in event`, or neither. -/
inductive EventTag where
  | agent
  | tools
  | other
  deriving DecidableEq, Repr

/-- One event of `self.agent.astream(..., stream_mode="updates")`: its node
tag and the contents of its `messages` list (empty for a missing or empty
`messages` key). -/
structure Event where
  tag : EventTag
  messages : List String
  deriving DecidableEq, Repr

/-- The status content built in the `"agent"` branch:
`f"Event {index} - Looking up the knowledge base..."`. -/
def agentContent (index : Nat) : String :=
  "Event " ++ toString index ++ " - Looking up the knowledge base..."

/-- The status content built in the `"tools"` branch:
`f"Event {index} - Processing the knowledge base..."`. -/
def toolsContent (index : Nat) : String :=
  "Event " ++ toString index ++ " - Processing the knowledge base..."

/-- Oracles for one `astream` call: the three setup steps, the event
sequence produced by the agent graph, an optional exception the event
iterator raises after its events, and the extraction oracle used by
`update_memory`. -/
structure StreamWorld where
  acquire : StepResult Unit
  refreshStep : StepResult Unit
  build : StepResult Unit
  events : List Event
  iterExn : Option String
  extract : MemConfig → String → RunnableConfig → StepResult String

/-- The mutable locals of `astream`'s event loop: the current `result` dict
and the 1-based event `index`. -/
structure StreamState where
  result : ResultDict
  index : Nat
  deriving DecidableEq, Repr

/-- A consolidation performed inside the `astream` loop: the 1-based index
of the event that triggered it, the message content passed to
`update_memory`, and what `update_memory` returned. -/
structure StreamConsolidation where
  eventIndex : Nat
  messages : String
  ret : UpdateReturn
  deriving DecidableEq, Repr

/-- One iteration of `astream`'s event loop. An `"agent"` event rebinds
`result` to a fresh status dict and yields it; a `"tools"` event overwrites
`result["content"]` with a nested status dict and yields; any recognized
event whose messages are non-empty and whose last content is truthy then
overwrites `result["content"]` with the final nested output dict, awaits
`update_memory` (defaults `store_type="semantic"`, `delay=10`) and yields
again. Returns the updated locals, the envelopes yielded, the
consolidations performed, and the message of an exception raised by
`update_memory` (if any). -/
def streamEvent (a : AgentState)
    (extract : MemConfig → String → RunnableConfig → StepResult String)
    (config : RunnableConfig) (st : StreamState) (ev : Event) :
    StreamState × List Envelope × List StreamConsolidation × Option String :=
  let i := st.index
  let branch : StreamState × List Envelope × Bool :=
    match ev.tag with
    | EventTag.agent =>
      let r : ResultDict :=
        { is_task_complete := true
          require_user_input := false
          content := Content.text (agentContent i) }
      (⟨r, i⟩, [mkEnvelope a.thread_id (some r) none], true)
    | EventTag.tools =>
      let r : ResultDict :=
        { st.result with
          content := Content.nested
            { is_task_complete := false
              require_user_input := false
              content := toolsContent i } }
      (⟨r, i⟩, [mkEnvelope a.thread_id (some r) none], true)
    | EventTag.other => (st, [], false)
  let st1 := branch.1
  let outs := branch.2.1
  let recognized := branch.2.2
  if recognized then
    match ev.messages.getLast? with
    | none => (⟨st1.result, i + 1⟩, outs, [], none)
    | some content =>
      if content = "" then
        (⟨st1.result, i + 1⟩, outs, [], none)
      else
        let r : ResultDict :=
          { st1.result with
            content := Content.nested
              { is_task_complete := true
                require_user_input := false
                content := content } }
        match update_memory a.action_type a.nspace extract content config
            updateMemoryDefaultStoreType updateMemoryDefaultDelay with
        | Except.error m => (⟨r, i⟩, outs, [], some m)
        | Except.ok u =>
          (⟨r, i + 1⟩,
           outs ++ [mkEnvelope a.thread_id (some r) none],
           [{ eventIndex := i, messages := content, ret := u }],
           none)
  else
    (⟨st1.result, i + 1⟩, outs, [], none)

/-- `astream`'s `async for` loop over the event sequence, aborting at the
first exception. -/
def streamLoop (a : AgentState)
    (extract : MemConfig → String → RunnableConfig → StepResult String)
    (config : RunnableConfig) :
    List Event → StreamState →
    StreamState × List Envelope × List StreamConsolidation × Option String
  | [], st => (st, [], [], none)
  | ev :: rest, st =>
    let step := streamEvent a extract config st ev
    match step.2.2.2 with
    | some m => (step.1, step.2.1, step.2.2.1, some m)
    | none =>
      let tail := streamLoop a extract config rest step.1
      (tail.1, step.2.1 ++ tail.2.1, step.2.2.1 ++ tail.2.2.1, tail.2.2.2)

/-- Observable outcome of one `astream` call: the post-call instance state,
the config, the envelopes yielded in order, the consolidations performed,
and the exception re-raised to the consumer (if any). -/
structure StreamRun where
  state : AgentState
  config : RunnableConfig
  envelopes : List Envelope
  consolidations : List StreamConsolidation
  raised : Option String
  deriving Repr

/-- The error envelope `astream` yields from its `except` block: the
current `result` dict together with `error={"code": 500, "message": str(e)}`. -/
def streamErrorEnvelope (thread_id : String) (result : ResultDict)
    (msg : String) : Envelope :=
  mkEnvelope thread_id (some result) (some { code := some 500, message := msg })

/-- `MemoryAgent.astream(prompt, thread_id=None)`: override the thread id
and initialize `result` before the `try`, run the same setup as `ainvoke`,
then iterate over the agent graph events yielding envelopes per event; on
any exception, yield one final envelope built from the current `result`
dict plus a `{"code": 500, "message": str(e)}` error, and re-raise the
exception. -/
def astream (a : AgentState) (w : StreamWorld) (prompt : String)
    (thread_id : Option String) : StreamRun :=
  let a := applyThread a thread_id
  let result := defaultResult
  let config := (params a prompt a.thread_id).1
  let err : ResultDict → List Envelope → List StreamConsolidation →
      String → StreamRun := fun r outs cons m =>
    { state := a, config := config
      envelopes := outs ++ [streamErrorEnvelope a.thread_id r m]
      consolidations := cons
      raised := some m }
  match w.acquire with
  | StepResult.exn m => err result [] [] m
  | StepResult.ok _ =>
    match (if a.refresh_checkpointer then w.refreshStep
           else StepResult.ok ()) with
    | StepResult.exn m => err result [] [] m
    | StepResult.ok _ =>
      match w.build with
      | StepResult.exn m => err result [] [] m
      | StepResult.ok _ =>
        let run := streamLoop a w.extract config w.events ⟨result, 1⟩
        match run.2.2.2 with
        | some m => err run.1.result run.2.1 run.2.2.1 m
        | none =>
          match w.iterExn with
          | some m => err run.1.result run.2.1 run.2.2.1 m
          | none =>
            { state := a, config := config
              envelopes := run.2.1
              consolidations := run.2.2.1
              raised := none }

end MemoryAgent

namespace MemoryAgent

/-- A tool appended by `MemoryAgent._get_tools`: the result of
`create_manage_memory_tool(namespace, store)` or
`create_search_memory_tool(namespace, store)`. -/
inductive MemTool where
  | manage : Namespace → MemTool
  | search : Namespace → MemTool
  deriving DecidableEq, Repr

/-- `MemoryAgent._get_tools`: `self.tools.extend([...])` appends one
manage-memory tool and one search-memory tool to the class-level `tools`
list (never clearing it) and returns the list. -/
def get_tools (tools : List MemTool) (nspace : Namespace) : List MemTool :=
  tools ++ [MemTool.manage nspace, MemTool.search nspace]

/-- Repeated agent builds against the single class-level `tools` list:
each build (possibly by a different instance, hence a different namespace)
runs `_get_tools` on the list left by the previous build. -/
def buildTools (tools : List MemTool) (builds : List Namespace) :
    List MemTool :=
  builds.foldl (fun acc nspace => get_tools acc nspace) tools

end MemoryAgent

namespace Fixtures

open MemoryManager MemoryAgent

/-- An extraction oracle that always succeeds with a fixed payload. -/
def okExtract : MemConfig → String → RunnableConfig → StepResult String :=
  fun _ _ _ => StepResult.ok "extracted"

/-- An invocation world in which every step succeeds and the model call
produces one output message. -/
def invokeWorldOk : InvokeWorld :=
  { acquire := StepResult.ok ()
    refreshStep := StepResult.ok ()
    build := StepResult.ok ()
    modelMessages := StepResult.ok ["ok"]
    extract := okExtract }

/-- An invocation world whose model call raises. -/
def invokeWorldModelDown : InvokeWorld :=
  { invokeWorldOk with modelMessages := StepResult.exn "model down" }

/-- The streaming scenario of the spec: events
`[agent, tools, agent-with-output]`, everything else succeeding; `c` is the
content of the output message of the third event. -/
def streamScenario (c : String) : StreamWorld :=
  { acquire := StepResult.ok ()
    refreshStep := StepResult.ok ()
    build := StepResult.ok ()
    events := [⟨EventTag.agent, []⟩, ⟨EventTag.tools, []⟩,
               ⟨EventTag.agent, [c]⟩]
    iterExn := none
    extract := okExtract }

/-- A streaming world whose checkpointer acquisition raises. -/
def streamWorldBoom : StreamWorld :=
  { streamScenario "x" with acquire := StepResult.exn "boom" }

/-- A plain agent configuration: `semantic` store, hot-path consolidation. -/
def agentSemantic : AgentState :=
  MemoryManager.init "t" "u" "s" "semantic" ActionType.hotpath true 60 25

/-- An agent configured with the `episodic` store type. -/
def agentEpisodic : AgentState :=
  MemoryManager.init "t" "u" "s" "episodic" ActionType.hotpath true 60 25

end Fixtures

section Lemmas

open MemoryManager MemoryAgent

/-- `selectPair` on the default store type computes to the semantic pair. -/
theorem selectPair_semantic :
    selectPair "semantic" =
      Except.ok (semanticInstructions, [Schema.Triple]) := by
  rfl

/-- A successful `update_memory` call with the default `store_type`
("semantic") always ran against the Triple pair over the given namespace. -/
theorem update_memory_semantic_mem (act : ActionType) (ns : Namespace)
    (ex : MemConfig → String → RunnableConfig → StepResult String)
    (m : String) (cfg : RunnableConfig) (d : Nat) (u : UpdateReturn)
    (h : update_memory act ns ex m cfg "semantic" d = Except.ok u) :
    u.mem = ⟨semanticInstructions, [Schema.Triple], ns⟩ := by
  unfold update_memory at h
  rw [selectPair_semantic] at h
  cases act with
  | background =>
    dsimp only at h
    simp only [Except.ok.injEq] at h
    subst h
    rfl
  | hotpath =>
    dsimp only at h
    rcases hx : ex ⟨semanticInstructions, [Schema.Triple], ns⟩ m cfg with
        v | msg <;> rw [hx] at h
    · simp only [Except.ok.injEq] at h
      subst h
      rfl
    · exact Except.noConfusion h

end Lemmas

section InvokeLemmas

open MemoryManager MemoryAgent

/-- Shape of every `ainvoke` run: the post-state is the thread-overridden
instance state, the config is built by `_params` from it, the envelope is a
JSON-RPC 2.0 envelope addressed by the current thread id populating exactly
one of `result`/`error`, and any consolidation it performed ran against the
semantic Triple pair over the instance namespace. -/
theorem ainvoke_shape (a : AgentState) (w : InvokeWorld) (p : String)
    (t : Option String) :
    (ainvoke a w p t).state = applyThread a t ∧
    (ainvoke a w p t).config =
      (params (applyThread a t) p (applyThread a t).thread_id).1 ∧
    (ainvoke a w p t).envelope.jsonrpc = "2.0" ∧
    (ainvoke a w p t).envelope.id = (applyThread a t).thread_id ∧
    (((ainvoke a w p t).envelope.result = none ∧
      (ainvoke a w p t).envelope.error ≠ none) ∨
     ((ainvoke a w p t).envelope.result ≠ none ∧
      (ainvoke a w p t).envelope.error = none)) ∧
    (∀ u, (ainvoke a w p t).consolidation = some u →
      u.mem =
        ⟨semanticInstructions, [Schema.Triple], (applyThread a t).nspace⟩) := by
  simp only [ainvoke]
  rcases h1 : w.acquire with v1 | m1 <;> simp only [h1]
  case exn => simp [invokeErrorEnvelope, mkEnvelope]
  rcases h2 : (if (applyThread a t).refresh_checkpointer then w.refreshStep
      else StepResult.ok ()) with v2 | m2 <;> simp only [h2]
  case exn => simp [invokeErrorEnvelope, mkEnvelope]
  rcases h3 : w.build with v3 | m3 <;> simp only [h3]
  case exn => simp [invokeErrorEnvelope, mkEnvelope]
  rcases h4 : w.modelMessages with msgs | m4 <;> simp only [h4]
  case exn => simp [invokeErrorEnvelope, mkEnvelope]
  rcases h5 : msgs.getLast? with _ | content <;> simp only [h5]
  case none => simp [mkEnvelope]
  rcases h6 : update_memory (applyThread a t).action_type
      (applyThread a t).nspace w.extract content
      (params (applyThread a t) p (applyThread a t).thread_id).1
      updateMemoryDefaultStoreType updateMemoryDefaultDelay with m6 | u6 <;>
    simp only [h6]
  case error => simp [invokeErrorEnvelope, mkEnvelope]
  simp only [mkEnvelope, Option.some.injEq]
  refine ⟨trivial, trivial, trivial, trivial, Or.inr (by simp), ?_⟩
  rintro u rfl
  exact update_memory_semantic_mem _ _ _ _ _ _ _
    (by simpa [updateMemoryDefaultStoreType] using h6)

end InvokeLemmas

section StreamLemmas

open MemoryManager MemoryAgent

/-- Every envelope yielded inside the event loop is a JSON-RPC 2.0 result
envelope for the current thread with no `error` field, and every
consolidation performed there ran against the semantic Triple pair over the
instance namespace. -/
theorem streamEvent_shape (a : AgentState)
    (x : MemConfig → String → RunnableConfig → StepResult String)
    (cfg : RunnableConfig) (st : StreamState) (ev : Event) :
    (∀ e ∈ (streamEvent a x cfg st ev).2.1,
       e.jsonrpc = "2.0" ∧ e.id = a.thread_id ∧ e.result ≠ none ∧
       e.error = none) ∧
    (∀ c ∈ (streamEvent a x cfg st ev).2.2.1,
       c.ret.mem = ⟨semanticInstructions, [Schema.Triple], a.nspace⟩) := by
  rcases ev with ⟨tag, msgs⟩
  cases tag <;> simp only [streamEvent]
  case other => simp
  all_goals {
    rcases hL : msgs.getLast? with _ | content <;> simp only [hL]
    case none => simp [mkEnvelope]
    by_cases hc : content = ""
    · rw [if_pos hc]
      simp [mkEnvelope]
    · rw [if_neg hc]
      rcases hu : update_memory a.action_type a.nspace x content cfg
          updateMemoryDefaultStoreType updateMemoryDefaultDelay with m | u <;>
        simp only [hu]
      · simp [mkEnvelope]
      · refine ⟨by simp [mkEnvelope], ?_⟩
        intro c hc2
        simp only [if_true, List.mem_singleton] at hc2
        subst hc2
        exact update_memory_semantic_mem _ _ _ _ _ _ _
          (by simpa [updateMemoryDefaultStoreType] using hu)
  }

end StreamLemmas

section StreamLoopLemmas

open MemoryManager MemoryAgent

/-- `streamEvent_shape` lifted over the whole event loop. -/
theorem streamLoop_shape (a : AgentState)
    (x : MemConfig → String → RunnableConfig → StepResult String)
    (cfg : RunnableConfig) :
    ∀ (evs : List Event) (st : StreamState),
    (∀ e ∈ (streamLoop a x cfg evs st).2.1,
       e.jsonrpc = "2.0" ∧ e.id = a.thread_id ∧ e.result ≠ none ∧
       e.error = none) ∧
    (∀ c ∈ (streamLoop a x cfg evs st).2.2.1,
       c.ret.mem = ⟨semanticInstructions, [Schema.Triple], a.nspace⟩) := by
  intro evs
  induction evs with
  | nil => intro st; simp [streamLoop]
  | cons ev rest ih =>
    intro st
    simp only [streamLoop]
    rcases hs : (streamEvent a x cfg st ev).2.2.2 with _ | m <;>
      simp only [hs]
    case none =>
      constructor
      · intro e he
        rcases List.mem_append.1 he with h | h
        · exact (streamEvent_shape a x cfg st ev).1 e h
        · exact (ih (streamEvent a x cfg st ev).1).1 e h
      · intro c hc
        rcases List.mem_append.1 hc with h | h
        · exact (streamEvent_shape a x cfg st ev).2 c h
        · exact (ih (streamEvent a x cfg st ev).1).2 c h
    case some =>
      exact ⟨(streamEvent_shape a x cfg st ev).1,
             (streamEvent_shape a x cfg st ev).2⟩

end StreamLoopLemmas

section AstreamShape

open MemoryManager MemoryAgent

/-- Shape of every `astream` run: the post-state is the thread-overridden
instance state; every envelope yielded is a JSON-RPC 2.0 envelope addressed
by the current thread with `result` populated; a run that terminates
normally yields no envelope with `error` populated; a run that re-raises an
exception yields exactly one error envelope, last, built from the current
`result` dict plus `code 500` and the exception message; and every
consolidation ran against the semantic Triple pair over the instance
namespace. -/
theorem astream_shape (a : AgentState) (w : StreamWorld) (p : String)
    (t : Option String) :
    (astream a w p t).state = applyThread a t ∧
    (astream a w p t).config =
      (params (applyThread a t) p (applyThread a t).thread_id).1 ∧
    (∀ e ∈ (astream a w p t).envelopes,
       e.jsonrpc = "2.0" ∧ e.id = (applyThread a t).thread_id ∧
       e.result ≠ none) ∧
    ((astream a w p t).raised = none →
       ∀ e ∈ (astream a w p t).envelopes, e.error = none) ∧
    (∀ m, (astream a w p t).raised = some m →
       ∃ pre r, (astream a w p t).envelopes =
           pre ++ [streamErrorEnvelope (applyThread a t).thread_id r m] ∧
         ∀ e ∈ pre, e.error = none) ∧
    (∀ c ∈ (astream a w p t).consolidations,
       c.ret.mem =
         ⟨semanticInstructions, [Schema.Triple], (applyThread a t).nspace⟩) := by
  simp only [astream]
  rcases h1 : w.acquire with v1 | m1 <;> simp only [h1]
  case exn =>
    refine ⟨trivial, trivial, ?_, by simp, ?_, by simp⟩
    · intro e he
      simp only [List.nil_append, List.mem_singleton] at he
      subst he
      exact ⟨rfl, rfl, by simp [streamErrorEnvelope, mkEnvelope]⟩
    · intro m hm
      simp only [Option.some.injEq] at hm
      subst hm
      exact ⟨[], defaultResult, by simp, by simp⟩
  rcases h2 : (if (applyThread a t).refresh_checkpointer then w.refreshStep
      else StepResult.ok ()) with v2 | m2 <;> simp only [h2]
  case exn =>
    refine ⟨trivial, trivial, ?_, by simp, ?_, by simp⟩
    · intro e he
      simp only [List.nil_append, List.mem_singleton] at he
      subst he
      exact ⟨rfl, rfl, by simp [streamErrorEnvelope, mkEnvelope]⟩
    · intro m hm
      simp only [Option.some.injEq] at hm
      subst hm
      exact ⟨[], defaultResult, by simp, by simp⟩
  rcases h3 : w.build with v3 | m3 <;> simp only [h3]
  case exn =>
    refine ⟨trivial, trivial, ?_, by simp, ?_, by simp⟩
    · intro e he
      simp only [List.nil_append, List.mem_singleton] at he
      subst he
      exact ⟨rfl, rfl, by simp [streamErrorEnvelope, mkEnvelope]⟩
    · intro m hm
      simp only [Option.some.injEq] at hm
      subst hm
      exact ⟨[], defaultResult, by simp, by simp⟩
  rcases h4 : (streamLoop (applyThread a t) w.extract
      (params (applyThread a t) p (applyThread a t).thread_id).1 w.events
      ⟨defaultResult, 1⟩).2.2.2 with _ | m4 <;> simp only [h4]
  case some =>
    refine ⟨trivial, trivial, ?_, by simp, ?_, ?_⟩
    · intro e he
      rcases List.mem_append.1 he with h | h
      · have := (streamLoop_shape (applyThread a t) w.extract _ w.events
            ⟨defaultResult, 1⟩).1 e h
        exact ⟨this.1, this.2.1, this.2.2.1⟩
      · simp only [List.mem_singleton] at h
        subst h
        exact ⟨rfl, rfl, by simp [streamErrorEnvelope, mkEnvelope]⟩
    · intro m hm
      simp only [Option.some.injEq] at hm
      subst hm
      refine ⟨_, _, rfl, ?_⟩
      intro e he
      exact ((streamLoop_shape (applyThread a t) w.extract _ w.events
        ⟨defaultResult, 1⟩).1 e he).2.2.2
    · intro c hc
      exact (streamLoop_shape (applyThread a t) w.extract _ w.events
        ⟨defaultResult, 1⟩).2 c hc
  rcases h5 : w.iterExn with _ | m5 <;> simp only [h5]
  case some =>
    refine ⟨trivial, trivial, ?_, by simp, ?_, ?_⟩
    · intro e he
      rcases List.mem_append.1 he with h | h
      · have := (streamLoop_shape (applyThread a t) w.extract _ w.events
            ⟨defaultResult, 1⟩).1 e h
        exact ⟨this.1, this.2.1, this.2.2.1⟩
      · simp only [List.mem_singleton] at h
        subst h
        exact ⟨rfl, rfl, by simp [streamErrorEnvelope, mkEnvelope]⟩
    · intro m hm
      simp only [Option.some.injEq] at hm
      subst hm
      refine ⟨_, _, rfl, ?_⟩
      intro e he
      exact ((streamLoop_shape (applyThread a t) w.extract _ w.events
        ⟨defaultResult, 1⟩).1 e he).2.2.2
    · intro c hc
      exact (streamLoop_shape (applyThread a t) w.extract _ w.events
        ⟨defaultResult, 1⟩).2 c hc
  case none =>
    refine ⟨trivial, trivial, ?_, ?_, by simp, ?_⟩
    · intro e he
      have := (streamLoop_shape (applyThread a t) w.extract _ w.events
          ⟨defaultResult, 1⟩).1 e he
      exact ⟨this.1, this.2.1, this.2.2.1⟩
    · intro _ e he
      exact ((streamLoop_shape (applyThread a t) w.extract _ w.events
        ⟨defaultResult, 1⟩).1 e he).2.2.2
    · intro c hc
      exact (streamLoop_shape (applyThread a t) w.extract _ w.events
        ⟨defaultResult, 1⟩).2 c hc

end AstreamShape

section ClaimC10

open MemoryManager MemoryAgent

/-- Claim C10: `_get_tools` appends exactly two memory tools (one
manage-memory, one search-memory) to the shared `tools` list without
clearing it, so the list grows by exactly two on each agent build and
accumulates across repeated builds and across instances (each build running
on the list the previous build left behind). -/
theorem tools_grow_by_two_each_build (tools : List MemTool) (ns : Namespace)
    (builds : List Namespace) :
    (get_tools tools ns).length = tools.length + 2 ∧
    (get_tools tools ns =
      tools ++ [MemTool.manage ns, MemTool.search ns]) ∧
    (∃ added, buildTools tools builds = tools ++ added ∧
      added.length = 2 * builds.length) := by
  refine ⟨by simp [get_tools], rfl, ?_⟩
  induction builds generalizing tools with
  | nil => exact ⟨[], by simp [buildTools], rfl⟩
  | cons b bs ih =>
    obtain ⟨added, heq, hlen⟩ := ih (get_tools tools b)
    refine ⟨MemTool.manage b :: MemTool.search b :: added, ?_, ?_⟩
    · have h1 : buildTools tools (b :: bs) =
          buildTools (get_tools tools b) bs := rfl
      rw [h1, heq]
      simp [get_tools]
    · simp only [List.length_cons, hlen, List.length_cons]
      omega

end ClaimC10

section ClaimC6

open MemoryManager MemoryAgent

/-- Claim C6: the namespace of every Memory Manager instance equals the
ordered tuple `("memories", thread_id, user_id, session_id)` of its
construction inputs; two instances have equal namespaces exactly when all
three identifier inputs coincide, and equal namespaces make `_get_similar`
target the same store partition. -/
theorem memory_namespace_partition {α : Type}
    (t u s st t2 u2 s2 st2 : String) (act act2 : ActionType)
    (rc rc2 : Bool) (fm fm2 mr mr2 : Nat)
    (search : Namespace → String → α) (msgs : List String) :
    (init t u s st act rc fm mr).nspace = ("memories", t, u, s) ∧
    ((init t u s st act rc fm mr).nspace =
        (init t2 u2 s2 st2 act2 rc2 fm2 mr2).nspace ↔
      (t = t2 ∧ u = u2 ∧ s = s2)) ∧
    ((init t u s st act rc fm mr).nspace =
        (init t2 u2 s2 st2 act2 rc2 fm2 mr2).nspace →
      get_similar search (init t u s st act rc fm mr) msgs =
        get_similar search (init t2 u2 s2 st2 act2 rc2 fm2 mr2) msgs) := by
  refine ⟨rfl, ?_, ?_⟩
  · simp [init, Prod.ext_iff]
  · intro h
    unfold get_similar
    rw [h]

/-- Witness for C6: two instances built from identical identifiers (but
different store/action configuration) retrieve from the same partition. -/
theorem memory_namespace_partition_witness :
    get_similar (fun n q => [n.1, q])
        (init "t" "u" "s" "episodic" ActionType.background false 1 2)
        ["q"] =
      get_similar (fun n q => [n.1, q])
        (init "t" "u" "s" "semantic" ActionType.hotpath true 60 25)
        ["q"] :=
  (memory_namespace_partition "t" "u" "s" "episodic" "t" "u" "s" "semantic"
    ActionType.background ActionType.hotpath false true 1 60 2 25
    (fun n q => [n.1, q]) ["q"]).2.2 rfl

end ClaimC6

section ClaimC5

open MemoryManager MemoryAgent

/-- Claim C5: `update_memory` selects exactly the fixed
(instructions, schemas) pair for each valid `store_type` value — episodic
maps to the Episode schema with the successful-explanations instructions,
user to UserProfile with the profile-extraction instructions, semantic to
Triple with the preferences instructions — and every other `store_type`
fails with the invalid-configuration `ValueError` before the memory manager
is created or any store I/O happens (the result is the validation error for
every extraction oracle). The last conjunct covers the
`agent/memory_manager.py` variant, which validates the instance attribute
the same way. -/
theorem update_memory_store_type_routing :
    (selectPair "episodic" =
      Except.ok (episodicInstructions, [Schema.Episode])) ∧
    (selectPair "user" =
      Except.ok (userInstructions, [Schema.UserProfile])) ∧
    (selectPair "semantic" =
      Except.ok (semanticInstructions, [Schema.Triple])) ∧
    (∀ st, st ∉ allowedStoreTypes →
      ∀ act ns ex msgs cfg d,
        update_memory act ns ex msgs cfg st d =
          Except.error storeTypeErrorMsg) ∧
    (∀ st instr schemas act ns ex msgs cfg d u,
      selectPair st = Except.ok (instr, schemas) →
      update_memory act ns ex msgs cfg st d = Except.ok u →
      u.mem = ⟨instr, schemas, ns⟩) ∧
    (∀ a ex msgs cfg d, a.store_type ∉ allowedStoreTypes →
      update_memory_attr a ex msgs cfg d =
        Except.error storeTypeErrorMsg) := by
  refine ⟨rfl, rfl, rfl, ?_, ?_, ?_⟩
  · intro st h act ns ex msgs cfg d
    unfold update_memory selectPair
    rw [if_pos h]
  · intro st instr schemas act ns ex msgs cfg d u hsel hu
    unfold update_memory at hu
    rw [hsel] at hu
    cases act with
    | background =>
      dsimp only at hu
      simp only [Except.ok.injEq] at hu
      subst hu
      rfl
    | hotpath =>
      dsimp only at hu
      rcases hx : ex ⟨instr, schemas, ns⟩ msgs cfg with v | m <;>
        rw [hx] at hu
      · simp only [Except.ok.injEq] at hu
        subst hu
        rfl
      · exact Except.noConfusion hu
  · intro a ex msgs cfg d h
    unfold update_memory_attr update_memory selectPair
    rw [if_pos h]

/-- Witness for C5: an unknown store type is rejected with the validation
error before any extraction runs. -/
theorem update_memory_store_type_routing_witness :
    update_memory ActionType.hotpath ("memories", "t", "u", "s")
        Fixtures.okExtract "msg" ⟨"t", 25, none, none⟩ "bogus" 10 =
      Except.error storeTypeErrorMsg :=
  update_memory_store_type_routing.2.2.2.1 "bogus" (by decide)
    ActionType.hotpath ("memories", "t", "u", "s") Fixtures.okExtract
    "msg" ⟨"t", 25, none, none⟩ 10

end ClaimC5

section ClaimC7

open MemoryManager MemoryAgent

/-- Claim C7: with `action_type = "background"`, `update_memory` returns
the handle of a task submitted with `after_seconds = delay` (default 10)
and never runs the extraction (its result is the same for every extraction
oracle); with `action_type = "hotpath"` it awaits the extraction and
returns its result. -/
theorem update_memory_background_vs_hotpath (ns : Namespace)
    (ex ex2 : MemConfig → String → RunnableConfig → StepResult String)
    (msgs : String) (cfg : RunnableConfig) (st : String) (d : Nat)
    (instr : String) (schemas : List Schema) (v : String) :
    updateMemoryDefaultDelay = 10 ∧
    (update_memory ActionType.background ns ex msgs cfg st d =
      update_memory ActionType.background ns ex2 msgs cfg st d) ∧
    (selectPair st = Except.ok (instr, schemas) →
      update_memory ActionType.background ns ex msgs cfg st d =
        Except.ok (UpdateReturn.submitted ⟨instr, schemas, ns⟩ d)) ∧
    (selectPair st = Except.ok (instr, schemas) →
      ex ⟨instr, schemas, ns⟩ msgs cfg = StepResult.ok v →
      update_memory ActionType.hotpath ns ex msgs cfg st d =
        Except.ok (UpdateReturn.awaited ⟨instr, schemas, ns⟩ v)) := by
  refine ⟨rfl, ?_, ?_, ?_⟩
  · unfold update_memory
    cases selectPair st <;> rfl
  · intro h
    unfold update_memory
    rw [h]
  · intro h hx
    unfold update_memory
    rw [h]
    dsimp only
    rw [hx]

/-- Witness for C7: a background call with the user pair returns the
delayed-task handle untouched by the extraction oracle. -/
theorem update_memory_background_vs_hotpath_witness :
    update_memory ActionType.background ("memories", "t", "u", "s")
        Fixtures.okExtract "msg" ⟨"t", 25, none, none⟩ "user" 10 =
      Except.ok (UpdateReturn.submitted
        ⟨userInstructions, [Schema.UserProfile],
         ("memories", "t", "u", "s")⟩ 10) :=
  (update_memory_background_vs_hotpath ("memories", "t", "u", "s")
    Fixtures.okExtract Fixtures.okExtract "msg" ⟨"t", 25, none, none⟩
    "user" 10 userInstructions [Schema.UserProfile] "v").2.2.1 rfl

end ClaimC7

section ClaimC2

open MemoryManager MemoryAgent

/-- Claim C2: `ainvoke` catches every exception raised after entry —
checkpoint acquisition, checkpoint refresh, agent build or reuse, model
call, consolidation — and returns an error envelope whose `error` carries
that exception's message; when no step raises, the returned envelope
carries no error. `ainvoke` is a total function of its oracles, so no
exception ever propagates to the caller. -/
theorem ainvoke_catches_every_exception (a : AgentState) (w : InvokeWorld)
    (p : String) (t : Option String) :
    (∀ m, firstInvokeExn (applyThread a t) w
        (params (applyThread a t) p (applyThread a t).thread_id).1 =
          some m →
      (ainvoke a w p t).envelope =
        invokeErrorEnvelope (applyThread a t).thread_id m) ∧
    (firstInvokeExn (applyThread a t) w
        (params (applyThread a t) p (applyThread a t).thread_id).1 = none →
      (ainvoke a w p t).envelope.error = none) := by
  simp only [ainvoke, firstInvokeExn]
  rcases h1 : w.acquire with v1 | m1 <;> simp only [h1]
  case exn => simp
  rcases h2 : (if (applyThread a t).refresh_checkpointer then w.refreshStep
      else StepResult.ok ()) with v2 | m2 <;> simp only [h2]
  case exn => simp
  rcases h3 : w.build with v3 | m3 <;> simp only [h3]
  case exn => simp
  rcases h4 : w.modelMessages with msgs | m4 <;> simp only [h4]
  case exn => simp
  rcases h5 : msgs.getLast? with _ | content <;> simp only [h5]
  case none => simp [mkEnvelope]
  rcases h6 : update_memory (applyThread a t).action_type
      (applyThread a t).nspace w.extract content
      (params (applyThread a t) p (applyThread a t).thread_id).1
      updateMemoryDefaultStoreType updateMemoryDefaultDelay with m6 | u6 <;>
    simp only [h6]
  case error => simp
  simp [mkEnvelope]

/-- Witness for C2: a model-call exception becomes an error envelope with
that exception's message. -/
theorem ainvoke_catches_every_exception_witness :
    (ainvoke Fixtures.agentSemantic Fixtures.invokeWorldModelDown
        "p" none).envelope =
      invokeErrorEnvelope "t" "model down" :=
  (ainvoke_catches_every_exception Fixtures.agentSemantic
    Fixtures.invokeWorldModelDown "p" none).1 "model down" (by decide)

end ClaimC2

section ClaimC1

open MemoryManager MemoryAgent

/-- Counterexample to claim C1 as stated: the error envelope `astream`
yields on a streaming exception populates BOTH `result` (the current result
dict, initialized before the `try`) and `error` — the claim says an
envelope never contains both. -/
theorem stream_error_envelope_populates_both :
    ∃ e ∈ (astream Fixtures.agentSemantic Fixtures.streamWorldBoom
        "hi" none).envelopes, e.result ≠ none ∧ e.error ≠ none := by
  decide

/-- Claim C1 amended: every envelope returned by `ainvoke` populates
exactly one of `result`/`error`; every envelope `astream` yields during
normal operation populates `result` only; the single error envelope
`astream` yields on a streaming exception populates `error` AND also
retains the current `result` dict (both present); and constructing an
envelope with both `result` and `error` absent fails with a `ValueError`. -/
theorem envelope_population_amended :
    (∀ (a : AgentState) (w : InvokeWorld) (p : String) (t : Option String),
      ((ainvoke a w p t).envelope.result = none ∧
       (ainvoke a w p t).envelope.error ≠ none) ∨
      ((ainvoke a w p t).envelope.result ≠ none ∧
       (ainvoke a w p t).envelope.error = none)) ∧
    (∀ (a : AgentState) (w : StreamWorld) (p : String) (t : Option String),
      ((astream a w p t).raised = none →
        ∀ e ∈ (astream a w p t).envelopes,
          e.result ≠ none ∧ e.error = none) ∧
      (∀ m, (astream a w p t).raised = some m →
        ∃ pre r, (astream a w p t).envelopes =
            pre ++ [streamErrorEnvelope (applyThread a t).thread_id r m] ∧
          ∀ e ∈ pre, e.result ≠ none ∧ e.error = none)) ∧
    (∀ tid, response tid none none =
      Except.error "Both result and error are None") := by
  refine ⟨?_, ?_, ?_⟩
  · intro a w p t
    rcases (ainvoke_shape a w p t).2.2.2.2.1 with h | h
    · exact Or.inl ⟨h.1, h.2⟩
    · exact Or.inr ⟨h.1, h.2⟩
  · intro a w p t
    constructor
    · intro h e he
      exact ⟨((astream_shape a w p t).2.2.1 e he).2.2,
             (astream_shape a w p t).2.2.2.1 h e he⟩
    · intro m hm
      obtain ⟨pre, r, heq, hpre⟩ := (astream_shape a w p t).2.2.2.2.1 m hm
      refine ⟨pre, r, heq, ?_⟩
      intro e he
      refine ⟨((astream_shape a w p t).2.2.1 e ?_).2.2, hpre e he⟩
      rw [heq]
      exact List.mem_append_left _ he
  · intro tid
    rfl

/-- Witness for amended C1: the single error envelope of a failed stream,
preceded only by result-only envelopes. -/
theorem envelope_population_amended_witness :
    ∃ pre r, (astream Fixtures.agentSemantic Fixtures.streamWorldBoom
        "hi" none).envelopes =
        pre ++ [streamErrorEnvelope "t" r "boom"] ∧
      ∀ e ∈ pre, e.result ≠ none ∧ e.error = none :=
  (envelope_population_amended.2.1 Fixtures.agentSemantic
    Fixtures.streamWorldBoom "hi" none).2 "boom" (by decide)

end ClaimC1

section ClaimC8

open MemoryManager MemoryAgent

/-- Claim C8: if an exception occurs during `astream`'s iteration (setup or
event loop or the iterator itself), the run yields exactly one final error
envelope — `streamErrorEnvelope` carries `{"code": 500, "message": str(e)}`
— preceded only by error-free envelopes, and re-raises that same exception
(`raised = some m` with the same message); a normally exhausted run yields
no error envelope at all, so abnormal termination is distinguishable. -/
theorem stream_exception_error_envelope_then_reraise (a : AgentState)
    (w : StreamWorld) (p : String) (t : Option String) :
    (∀ m, (astream a w p t).raised = some m →
      ∃ pre r, (astream a w p t).envelopes =
          pre ++ [streamErrorEnvelope (applyThread a t).thread_id r m] ∧
        ∀ e ∈ pre, e.error = none) ∧
    ((astream a w p t).raised = none →
      ∀ e ∈ (astream a w p t).envelopes, e.error = none) :=
  ⟨(astream_shape a w p t).2.2.2.2.1, (astream_shape a w p t).2.2.2.1⟩

/-- Witness for C8: a failing checkpointer acquisition produces the single
final 500-error envelope and the re-raised message. -/
theorem stream_exception_error_envelope_then_reraise_witness :
    ∃ pre r, (astream Fixtures.agentSemantic Fixtures.streamWorldBoom
        "p8" none).envelopes =
        pre ++ [streamErrorEnvelope "t" r "boom"] ∧
      ∀ e ∈ pre, e.error = none :=
  (stream_exception_error_envelope_then_reraise Fixtures.agentSemantic
    Fixtures.streamWorldBoom "p8" none).1 "boom" (by decide)

end ClaimC8

section ClaimC4

open MemoryManager MemoryAgent

/-- Claim C4 evaluated at the failing input: an agent configured with
`store_type = "episodic"` nevertheless consolidates with the semantic
Triple pair, because `ainvoke` calls `update_memory` without forwarding
`self.store_type` and the parameter defaults to `"semantic"`; the claim
(and the spec) say the Episode pair is selected for this configuration. -/
theorem episodic_agent_consolidates_with_semantic_pair :
    Fixtures.agentEpisodic.store_type = "episodic" ∧
    (ainvoke Fixtures.agentEpisodic Fixtures.invokeWorldOk "p"
        none).consolidation =
      some (UpdateReturn.awaited
        ⟨semanticInstructions, [Schema.Triple], ("memories", "t", "u", "s")⟩
        "extracted") ∧
    semanticInstructions ≠ episodicInstructions ∧
    ([Schema.Triple] : List Schema) ≠ [Schema.Episode] := by
  refine ⟨rfl, by decide, by decide, by decide⟩

end ClaimC4

section ClaimC3

open MemoryManager MemoryAgent

/-- Counterexample to claim C3 as stated: on the event sequence
`[agent, tools, agent-with-output]`, `astream` yields FOUR envelopes, not
three — the third event yields once from the `"agent"` status branch and
once more from the output branch — and the top-level `is_task_complete`
values are `[true, true, true, true]`, not `[true, false, true]` (the
tools envelope carries `false` only inside its nested
`result["content"]`). -/
theorem stream_three_event_scenario_not_three_envelopes :
    ((astream Fixtures.agentSemantic (Fixtures.streamScenario "answer")
        "p" none).envelopes.length = 4 ∧
     (astream Fixtures.agentSemantic (Fixtures.streamScenario "answer")
        "p" none).envelopes.map
          (fun e => (e.result.map (fun r => r.is_task_complete))) =
        [some true, some true, some true, some true]) ∧
    ¬ ((astream Fixtures.agentSemantic (Fixtures.streamScenario "answer")
        "p" none).envelopes.length = 3) := by
  refine ⟨⟨by decide, by decide⟩, by decide⟩

/-- Claim C3 amended: for the event sequence
`[agent, tools, agent-with-output]` (output content `c ≠ ""`), `astream`
yields exactly FOUR envelopes in order — agent status, tools status, agent
status, final output — with top-level `is_task_complete` values
`[true, true, true, true]` (the tools envelope reports `false` only nested
inside `result["content"]`), and consolidation is triggered exactly once,
on the third event. -/
theorem stream_three_event_scenario_amended (t0 u0 s0 c p : String)
    (hC : c ≠ "") :
    (astream (init t0 u0 s0 "semantic" ActionType.hotpath true 60 25)
        (Fixtures.streamScenario c) p none).envelopes =
      [mkEnvelope t0
        (some ⟨true, false, Content.text (agentContent 1)⟩) none,
       mkEnvelope t0
        (some ⟨true, false, Content.nested ⟨false, false, toolsContent 2⟩⟩)
        none,
       mkEnvelope t0
        (some ⟨true, false, Content.text (agentContent 3)⟩) none,
       mkEnvelope t0
        (some ⟨true, false, Content.nested ⟨true, false, c⟩⟩) none] ∧
    (astream (init t0 u0 s0 "semantic" ActionType.hotpath true 60 25)
        (Fixtures.streamScenario c) p none).consolidations =
      [⟨3, c, UpdateReturn.awaited
        ⟨semanticInstructions, [Schema.Triple], ("memories", t0, u0, s0)⟩
        "extracted"⟩] ∧
    (astream (init t0 u0 s0 "semantic" ActionType.hotpath true 60 25)
        (Fixtures.streamScenario c) p none).raised = none := by
  simp [astream, streamLoop, streamEvent, Fixtures.streamScenario,
    Fixtures.okExtract, update_memory, selectPair_semantic, init,
    applyThread, params, defaultResult, mkEnvelope, hC,
    updateMemoryDefaultStoreType, updateMemoryDefaultDelay]

/-- Witness for amended C3 at a concrete output content. -/
theorem stream_three_event_scenario_amended_witness :
    (astream (init "t" "u" "s" "semantic" ActionType.hotpath true 60 25)
        (Fixtures.streamScenario "answer") "p" none).consolidations =
      [⟨3, "answer", UpdateReturn.awaited
        ⟨semanticInstructions, [Schema.Triple], ("memories", "t", "u", "s")⟩
        "extracted"⟩] :=
  (stream_three_event_scenario_amended "t" "u" "s" "answer" "p"
    (by decide)).2.1

end ClaimC3

section ClaimC9

open MemoryManager MemoryAgent

/-- Claim C9: calling `ainvoke` (or `astream`) with an explicit `thread_id`
permanently overwrites the instance's `thread_id` — the response envelope
id, the checkpoint `RunnableConfig`, and all later calls use the new value
— while the namespace tuple built at construction stays unchanged, so every
memory retrieval and consolidation still targets the construction-time
namespace components. -/
theorem thread_override_updates_thread_not_namespace
    (t0 u0 s0 st : String) (act : ActionType) (rc : Bool) (fm mr : Nat)
    (w w2 : InvokeWorld) (ws : StreamWorld) (p p2 ps t1 : String) :
    ((ainvoke (init t0 u0 s0 st act rc fm mr) w p
        (some t1)).state.thread_id = t1) ∧
    ((ainvoke (init t0 u0 s0 st act rc fm mr) w p
        (some t1)).state.nspace = ("memories", t0, u0, s0)) ∧
    ((ainvoke (init t0 u0 s0 st act rc fm mr) w p
        (some t1)).envelope.id = t1) ∧
    ((ainvoke (init t0 u0 s0 st act rc fm mr) w p
        (some t1)).config.thread_id = t1) ∧
    (∀ u, (ainvoke (init t0 u0 s0 st act rc fm mr) w p
        (some t1)).consolidation = some u →
      u.mem.nspace = ("memories", t0, u0, s0)) ∧
    ((ainvoke (ainvoke (init t0 u0 s0 st act rc fm mr) w p
        (some t1)).state w2 p2 none).envelope.id = t1) ∧
    ((ainvoke (ainvoke (init t0 u0 s0 st act rc fm mr) w p
        (some t1)).state w2 p2 none).state.nspace =
      ("memories", t0, u0, s0)) ∧
    ((astream (init t0 u0 s0 st act rc fm mr) ws ps
        (some t1)).state.thread_id = t1) ∧
    ((astream (init t0 u0 s0 st act rc fm mr) ws ps
        (some t1)).state.nspace = ("memories", t0, u0, s0)) ∧
    (∀ e ∈ (astream (init t0 u0 s0 st act rc fm mr) ws ps
        (some t1)).envelopes, e.id = t1) ∧
    (∀ c ∈ (astream (init t0 u0 s0 st act rc fm mr) ws ps
        (some t1)).consolidations,
      c.ret.mem.nspace = ("memories", t0, u0, s0)) := by
  have hI := ainvoke_shape (init t0 u0 s0 st act rc fm mr) w p (some t1)
  have hS := astream_shape (init t0 u0 s0 st act rc fm mr) ws ps (some t1)
  have hstate : (ainvoke (init t0 u0 s0 st act rc fm mr) w p
      (some t1)).state = applyThread (init t0 u0 s0 st act rc fm mr)
      (some t1) := hI.1
  have hI2 := ainvoke_shape (ainvoke (init t0 u0 s0 st act rc fm mr) w p
      (some t1)).state w2 p2 none
  refine ⟨?_, ?_, ?_, ?_, ?_, ?_, ?_, ?_, ?_, ?_, ?_⟩
  · rw [hstate]; rfl
  · rw [hstate]; rfl
  · rw [hI.2.2.2.1]; rfl
  · rw [hI.2.1]; rfl
  · intro u hu
    have := hI.2.2.2.2.2 u hu
    rw [this]
    rfl
  · rw [hI2.2.2.2.1]
    simp only [applyThread]
    rw [hstate]
    rfl
  · rw [hI2.1]
    simp only [applyThread]
    rw [hstate]
    rfl
  · rw [hS.1]; rfl
  · rw [hS.1]; rfl
  · intro e he
    have := (hS.2.2.1 e he).2.1
    rw [this]; rfl
  · intro c hc
    have := hS.2.2.2.2.2 c hc
    rw [this]
    rfl

/-- Witness for C9: after overriding the thread id to `"t2"`, the
consolidation performed by that very call still ran against the
construction-time namespace. -/
theorem thread_override_updates_thread_not_namespace_witness :
    (UpdateReturn.awaited
      ⟨semanticInstructions, [Schema.Triple], ("memories", "t", "u", "s")⟩
      "extracted").mem.nspace = ("memories", "t", "u", "s") :=
  (thread_override_updates_thread_not_namespace "t" "u" "s" "semantic"
    ActionType.hotpath true 60 25 Fixtures.invokeWorldOk
    Fixtures.invokeWorldOk (Fixtures.streamScenario "answer")
    "p" "p2" "ps" "t2").2.2.2.2.1 _ (by decide)

end ClaimC9
